import Mathlib

/-!
Shallow embedding of `src/main.rs` of the dadjokes repository: a polling
loop that checks a hackerspace status endpoint, fetches reddit posts,
selects the highest-scored one, deduplicates against a persisted id file,
synthesizes speech and paints the text on a terminal.

Network responses, file-system outcomes and remote-service outcomes are
modelled as explicit inputs (`Except`-valued response bodies, success
flags), so every function of the program becomes a pure Lean function.
-/

/-- Model of `serde_json::Value`.  A JSON number is represented by the one
observation this program ever makes of it, `Number::as_i64` (`some n` when
the number is representable as a 64-bit signed integer, `none` otherwise,
e.g. for fractional values).  Objects are association lists in document
order. -/
inductive JValue where
  | null
  | bool (b : Bool)
  | num (asI64 : Option Int)
  | str (s : String)
  | arr (elems : List JValue)
  | obj (fields : List (String × JValue))

/-- First binding of a key in an object's field list (model of map lookup;
parsed JSON objects bind each key once). -/
def lookupKey : List (String × JValue) → String → Option JValue
  | [], _ => none
  | (k, v) :: rest, key => if k = key then some v else lookupKey rest key

/-- Model of `Value::get` with a string index: a key lookup on objects,
`None` on every other value. -/
def JValue.get (j : JValue) (key : String) : Option JValue :=
  match j with
  | .obj fields => lookupKey fields key
  | _ => none

/-- Split a character sequence at every occurrence of a separator, the way
Rust's `str::split` and `serde_json`'s pointer tokenisation do: `n`
separators yield `n + 1` (possibly empty) segments. -/
def splitChar (sep : Char) : List Char → List (List Char)
  | [] => [[]]
  | c :: cs =>
    if c = sep then [] :: splitChar sep cs
    else
      match splitChar sep cs with
      | [] => [[c]]
      | t :: ts => (c :: t) :: ts

/-- Value of a pure digit sequence, `none` as soon as a non-digit occurs
(model of `str::parse::<usize>` on pointer tokens, which also rejects a
leading `-`, since `-` is not a digit). -/
def digitsVal (cs : List Char) : Option Nat :=
  cs.foldl
    (fun acc c =>
      match acc with
      | none => none
      | some n => if c.isDigit then some (n * 10 + (c.toNat - 48)) else none)
    (some 0)

/-- Model of `serde_json`'s array-index parsing for JSON pointers: no `+`
sign, no leading zero, otherwise a plain digit string. -/
def parseArrayIndex (t : List Char) : Option Nat :=
  match t with
  | [] => none
  | '+' :: _ => none
  | ['0'] => some 0
  | '0' :: _ :: _ => none
  | _ => digitsVal t

/-- JSON-pointer token unescaping, `~1` to `/` and `~0` to `~` (a single
left-to-right pass, which agrees with `serde_json`'s two successive
`replace` calls on these two patterns). -/
def unescapeChars : List Char → List Char
  | [] => []
  | '~' :: '1' :: rest => '/' :: unescapeChars rest
  | '~' :: '0' :: rest => '~' :: unescapeChars rest
  | c :: rest => c :: unescapeChars rest

/-- Descend through a parsed pointer, one token at a time (model of
`Value::pointer`'s fold). -/
def JValue.pointerAux : JValue → List (List Char) → Option JValue
  | j, [] => some j
  | j, t :: rest =>
    match j with
    | .obj fields =>
      match lookupKey fields (String.mk (unescapeChars t)) with
      | some v => JValue.pointerAux v rest
      | none => none
    | .arr elems =>
      match parseArrayIndex (unescapeChars t) with
      | some i =>
        match elems.get? i with
        | some v => JValue.pointerAux v rest
        | none => none
      | none => none
    | _ => none

/-- Model of `Value::pointer`: empty pointer returns the whole document, a
pointer not starting with `/` resolves to `None`, otherwise the tokens
after the leading `/` (split on `/`) are resolved in order. -/
def JValue.pointer (j : JValue) (p : String) : Option JValue :=
  match p.data with
  | [] => some j
  | '/' :: rest => JValue.pointerAux j (splitChar '/' rest)
  | _ => none

/-- The `RedditPost` struct of the source (`score: i64` becomes `Int`; the
program only compares scores, never does arithmetic on them). -/
structure RedditPost where
  id : String
  title : String
  selftext : String
  score : Int
deriving DecidableEq

/-- The body of the `for child in a` loop of `load_newest_reddit_posts`:
the four `/data/...` pointers of one child and the single tuple match that
either builds a `RedditPost` (with `as_i64().unwrap_or_default()` on the
score) or skips the child. -/
def parseChild (child : JValue) : Option RedditPost :=
  match child.pointer "/data/id", child.pointer "/data/title",
        child.pointer "/data/selftext", child.pointer "/data/score" with
  | some (.str id), some (.str title), some (.str selftext), some (.num score) =>
    some { id := id, title := title, selftext := selftext, score := score.getD 0 }
  | _, _, _, _ => none

/-- The accumulation loop of `load_newest_reddit_posts`: `result.push` for
each child that parses, in input order. -/
def extractPosts : List JValue → List RedditPost → List RedditPost
  | [], acc => acc
  | child :: rest, acc =>
    match parseChild child with
    | some p => extractPosts rest (acc ++ [p])
    | none => extractPosts rest acc

/-- Model of `load_newest_reddit_posts`.  The input is the combined result
of `reqwest::get` and `response.json()` (`Except.error` for a transport
failure or a malformed body, both a `reqwest::Error` propagated by `?`).
If `/data/children` is not an array the result is the empty vector. -/
def load_newest_reddit_posts (resp : Except Unit JValue) :
    Except Unit (List RedditPost) :=
  match resp with
  | .error e => .error e
  | .ok json =>
    .ok (match json.pointer "/data/children" with
         | some (.arr a) => extractPosts a []
         | _ => [])

/-- Model of `space_is_open`.  The input is the combined result of
`reqwest::get` and `response.json()`; both failures propagate via `?`.
On a parsed body the function is total: `true` exactly when field `state`
is the string `"open"`, `false` for a missing field, a non-string value or
any other string. -/
def space_is_open (resp : Except Unit JValue) : Except Unit Bool :=
  match resp with
  | .error e => .error e
  | .ok v =>
    .ok (match v.get "state" with
         | some (.str s) => s == "open"
         | _ => false)

/-- One step of `Iterator::max_by_key` (via `core::cmp::max_by`): keep the
accumulator only when its key is strictly greater, so a tie moves to the
newer element. -/
def selectStep (acc q : RedditPost) : RedditPost :=
  if acc.score > q.score then acc else q

/-- Model of `posts.iter().max_by_key(|p| p.score)`: `reduce` with
`selectStep`, `none` on an empty vector. -/
def maxByScore : List RedditPost → Option RedditPost
  | [] => none
  | p :: ps => some (ps.foldl selectStep p)

/-- Error kinds of `std::io::Error` that matter here: `File::open` on an
absent file yields `notFound`; permission and other faults are the rest. -/
inductive IOErr where
  | notFound
  | permissionDenied
  | other
deriving DecidableEq

/-- Drop the final segment produced by splitting when it is empty: a
terminating newline does not open a new line.  Together with `splitChar`
this models `BufRead::lines`' segmentation. -/
def dropLastEmpty : List (List Char) → List (List Char)
  | [] => []
  | [l] => if l = [] then [] else [l]
  | l :: ls => l :: dropLastEmpty ls

/-- Strip one carriage return at the end of a line, as `BufRead::lines`
does for CRLF endings. -/
def stripCR (l : List Char) : List Char :=
  if l.getLast? = some '\r' then l.dropLast else l

/-- Model of `BufReader::lines` over in-memory file contents: split on
newlines, drop the segment after a terminating newline, strip one trailing
carriage return per line. -/
def fileLines (contents : List Char) : List String :=
  (dropLastEmpty (splitChar '\n' contents)).map (fun l => String.mk (stripCR l))

/-- Model of `load_used_ids`.  The input is the result of
`File::open(USED_IDS_FILE)` (`Except.error` when the open fails, including
for an absent file, which `?` propagates); on success the non-empty lines
of the contents are returned. -/
def load_used_ids (file : Except IOErr (List Char)) : Except IOErr (List String) :=
  match file with
  | .error e => .error e
  | .ok contents => .ok ((fileLines contents).filter (fun l => !l.isEmpty))

/-- The call site in `main`: `load_used_ids().unwrap_or_default()` falls
back to the empty list on every load error. -/
def startup_used_ids (file : Except IOErr (List Char)) : List String :=
  match load_used_ids file with
  | .ok l => l
  | .error _ => []

/-- Contents written by the persistence step of `run`: `File::create`
truncates, then one `writeln!` per identifier of the whole in-memory
list. -/
def writeAll : List String → List Char
  | [] => []
  | id :: rest => id.data ++ '\n' :: writeAll rest

/-- The in-memory identifier list together with the backing file's
contents. -/
structure IdStore where
  used : List String
  file : List Char
deriving DecidableEq

/-- The spec's `append_and_persist`, as `run` performs it (lines 96-101 of
the source): push the id onto the in-memory list, then rewrite the whole
file with one id per line. -/
def append_and_persist (st : IdStore) (id : String) : IdStore :=
  let used' := st.used ++ [id]
  { used := used', file := writeAll used' }

/-- UTF-8 byte length of a string, the value of Rust's `String::len` /
`str::len` (bytes, not characters and not display columns). -/
def byteLen (s : String) : Nat :=
  (s.data.map Char.utf8Size).sum

/-- Truncation performed by Rust's `as u16` cast. -/
def u16cast (n : Nat) : Nat := n % 65536

/-- The horizontal centering computation `(width - text.len() as u16) / 2`
of the presentation step, with debug-profile overflow checking: `none`
models the panic when the 16-bit subtraction underflows. -/
def centerX (width len : Nat) : Option Nat :=
  if width < u16cast len then none else some ((width - u16cast len) / 2)

/-- Per-iteration error contexts attached by `run` (via `context`). -/
inductive RunError where
  | spacestate
  | redditFetch
  | noPost
  | createFile
  | writeFile
  | synth
  | decoder
  | terminal
deriving DecidableEq

/-- Outcome of one `run` call: normal return, an error propagated with
`?`/`bail!`, or a panic from checked arithmetic. -/
inductive StepOutcome where
  | ok
  | errored (e : RunError)
  | panicked
deriving DecidableEq

/-- What happened to the backing file during one `run` call: untouched,
truncated by `File::create` but not fully written because a `writeln!`
failed, or fully rewritten with the given contents. -/
inductive FileState where
  | untouched
  | writeInterrupted
  | rewritten (contents : List Char)
deriving DecidableEq

/-- The external world of one loop iteration: the two HTTP response bodies
(result of GET plus JSON parse), success of file creation and of the
`writeln!` loop, success of speech synthesis and of audio decoding, and
the terminal's size and whether its cursor/paint calls succeed.  A
successful synthesis is modelled as carrying an audio stream (the
`unwrap()` on `audio_stream` succeeds). -/
structure IterEnv where
  spaceResp : Except Unit JValue
  redditResp : Except Unit JValue
  createOk : Bool
  writeOk : Bool
  synthOk : Bool
  decodeOk : Bool
  termOk : Bool
  width : Nat
  height : Nat

/-- Observable result of one `run` call. -/
structure RunOut where
  result : StepOutcome
  used : List String
  file : FileState
  synthAttempted : Bool
  playStarted : Bool
  presentAttempted : Bool
deriving DecidableEq

/-- The body-rendering loop: for each line of `selftext.split('\n')`,
compute the centered x (panicking on 16-bit underflow), move the cursor
and write (both covered by `termOk`), then `y += 1` (panicking when the
16-bit `y` overflows). -/
def paintLines (env : IterEnv) : List String → Nat → StepOutcome
  | [], _ => .ok
  | line :: rest, y =>
    match centerX env.width (byteLen line) with
    | none => .panicked
    | some _ =>
      if !env.termOk then .errored .terminal
      else if y + 1 ≥ 65536 then .panicked
      else paintLines env rest (y + 1)

/-- The presentation block of `run` after playback starts: clear the
screen, center and write the title on row `height / 2 - 1` (the x
computation can panic on 16-bit underflow, and `height / 2 - 1` itself
underflows when `height / 2 = 0`), then render the body lines from row
`height / 2 + 1` downward. -/
def paintOutcome (env : IterEnv) (p : RedditPost) : StepOutcome :=
  if !env.termOk then .errored .terminal
  else
    match centerX env.width (byteLen p.title) with
    | none => .panicked
    | some _ =>
      if env.height / 2 = 0 then .panicked
      else
        paintLines env ((splitChar '\n' p.selftext.data).map String.mk)
          (env.height / 2 + 1)

/-- Shallow embedding of `run`: check the space state, fetch and select
the highest-scored post, return early when its id was already used,
otherwise push the id, rewrite the id file, synthesize, start playback and
paint.  Each fallible step either proceeds or produces the corresponding
`RunError`, in source order. -/
def run (used : List String) (env : IterEnv) : RunOut :=
  match space_is_open env.spaceResp with
  | .error _ => ⟨.errored .spacestate, used, .untouched, false, false, false⟩
  | .ok false => ⟨.ok, used, .untouched, false, false, false⟩
  | .ok true =>
    match load_newest_reddit_posts env.redditResp with
    | .error _ => ⟨.errored .redditFetch, used, .untouched, false, false, false⟩
    | .ok posts =>
      match maxByScore posts with
      | none => ⟨.errored .noPost, used, .untouched, false, false, false⟩
      | some highest =>
        if used.contains highest.id then
          ⟨.ok, used, .untouched, false, false, false⟩
        else
          let used' := used ++ [highest.id]
          if !env.createOk then
            ⟨.errored .createFile, used', .untouched, false, false, false⟩
          else if !env.writeOk then
            ⟨.errored .writeFile, used', .writeInterrupted, false, false, false⟩
          else if !env.synthOk then
            ⟨.errored .synth, used', .rewritten (writeAll used'), true, false, false⟩
          else if !env.decodeOk then
            ⟨.errored .decoder, used', .rewritten (writeAll used'), true, false, false⟩
          else
            ⟨paintOutcome env highest, used', .rewritten (writeAll used'), true, true, true⟩

/-- Spec-side characterisation of a listing child that parses: all four
`/data/...` fields present, the first three JSON strings and the score a
JSON number. -/
def wellFormedChild (c : JValue) : Prop :=
  (∃ s, c.pointer "/data/id" = some (.str s)) ∧
  (∃ s, c.pointer "/data/title" = some (.str s)) ∧
  (∃ s, c.pointer "/data/selftext" = some (.str s)) ∧
  (∃ n, c.pointer "/data/score" = some (.num n))

/-- Status body reporting an open space. -/
def openBody : JValue := .obj [("state", .str "open")]

/-- A listing child in reddit's shape, with a configurable score field. -/
def childJson (id title selftext : String) (score : Option JValue) : JValue :=
  .obj [("data", .obj
    (("id", JValue.str id) :: ("title", JValue.str title) ::
     ("selftext", JValue.str selftext) ::
     (match score with
      | some v => [("score", v)]
      | none => [])))]

/-- Listing with the two children of the spec's end-to-end scenario:
`"a"` with score 5 and `"b"` with score 9. -/
def listing2 : JValue :=
  .obj [("data", .obj [("children", .arr
    [childJson "a" "ta" "sa" (some (.num (some 5))),
     childJson "b" "tb" "sb" (some (.num (some 9)))])])]

/-- Listing with one well-formed child and one child missing `score`. -/
def listingMissingScore : JValue :=
  .obj [("data", .obj [("children", .arr
    [childJson "a" "ta" "sa" (some (.num (some 5))),
     childJson "b" "tb" "sb" none])])]

/-- A fully functioning environment in which the space is open and the
listing is `listing2`. -/
def envOpen : IterEnv :=
  { spaceResp := .ok openBody, redditResp := .ok listing2,
    createOk := true, writeOk := true, synthOk := true, decodeOk := true,
    termOk := true, width := 80, height := 24 }

/-- Same environment, but speech synthesis fails. -/
def envSynthFail : IterEnv :=
  { envOpen with synthOk := false }

/-- A title of 65616 bytes: its length cast `as u16` is 80. -/
def bigTitle : String := String.mk (List.replicate 65616 'a')

theorem foldl_selectStep_mem (l : List RedditPost) : ∀ acc, l.foldl selectStep acc ∈ acc :: l := by
  induction l with
  | nil => intro acc; simp
  | cons q ps ih =>
    intro acc
    have hs : selectStep acc q = acc ∨ selectStep acc q = q := by
      unfold selectStep
      split
      · exact Or.inl rfl
      · exact Or.inr rfl
    simp only [List.foldl_cons]
    rcases hs with hs | hs <;> rw [hs]
    · have h := ih acc
      simp only [List.mem_cons] at h ⊢
      tauto
    · have h := ih q
      simp only [List.mem_cons] at h ⊢
      tauto

theorem foldl_selectStep_ge (l : List RedditPost) :
    ∀ acc q, q ∈ acc :: l → q.score ≤ (l.foldl selectStep acc).score := by
  induction l with
  | nil =>
    intro acc q hq
    simp only [List.foldl_nil]
    rcases List.mem_cons.mp hq with h | h
    · rw [h]
    · cases h
  | cons r ps ih =>
    intro acc q hq
    simp only [List.foldl_cons]
    have h1 : acc.score ≤ (selectStep acc r).score := by
      unfold selectStep; split <;> omega
    have h2 : r.score ≤ (selectStep acc r).score := by
      unfold selectStep; split <;> omega
    have hmem : (selectStep acc r).score ≤ (ps.foldl selectStep (selectStep acc r)).score :=
      ih (selectStep acc r) _ (List.mem_cons_self _ _)
    rcases List.mem_cons.mp hq with h | h
    · rw [h]; exact le_trans h1 hmem
    · rcases List.mem_cons.mp h with h | h
      · rw [h]; exact le_trans h2 hmem
      · exact ih (selectStep acc r) q (List.mem_cons_of_mem _ h)

theorem foldl_selectStep_keep (l : List RedditPost) :
    ∀ acc, (∀ q ∈ l, q.score < acc.score) → l.foldl selectStep acc = acc := by
  induction l with
  | nil => intro acc _; rfl
  | cons r ps ih =>
    intro acc h
    have hr : r.score < acc.score := h r (List.mem_cons_self _ _)
    have hsel : selectStep acc r = acc := by
      unfold selectStep
      split
      · rfl
      · exfalso; omega
    rw [List.foldl_cons, hsel]
    exact ih acc (fun q hq => h q (List.mem_cons_of_mem _ hq))

theorem selectStep_of_le (a p : RedditPost) (h : a.score ≤ p.score) : selectStep a p = p := by
  unfold selectStep
  split
  · exfalso; omega
  · rfl

theorem foldl_selectStep_le (l : List RedditPost) :
    ∀ (acc p : RedditPost), acc.score ≤ p.score → (∀ q ∈ l, q.score ≤ p.score) →
      (l.foldl selectStep acc).score ≤ p.score := by
  induction l with
  | nil => intro acc p hacc _; exact hacc
  | cons r ps ih =>
    intro acc p hacc h
    rw [List.foldl_cons]
    apply ih
    · unfold selectStep
      split
      · exact hacc
      · exact h r (List.mem_cons_self _ _)
    · exact fun q hq => h q (List.mem_cons_of_mem _ hq)

/-- C1 (counterexample): with two posts of equal maximal score, the
selection `posts.iter().max_by_key(|p| p.score)` returns the second
(last-encountered) post, not the first-encountered one claimed. -/
theorem selection_tie_first_cex :
    maxByScore [⟨"a", "ta", "sa", 5⟩, ⟨"b", "tb", "sb", 5⟩] = some ⟨"b", "tb", "sb", 5⟩ ∧
    (⟨"b", "tb", "sb", 5⟩ : RedditPost) ≠ ⟨"a", "ta", "sa", 5⟩ := by
  decide

/-- C1 (amended): among candidates sharing the maximum score, the
selection step returns the last-encountered such post (by input order):
whenever everything before `p` scores at most `p` and everything after `p`
scores strictly less, `p` is returned. -/
theorem selection_tie_last (l₁ l₂ : List RedditPost) (p : RedditPost)
    (h₁ : ∀ q ∈ l₁, q.score ≤ p.score) (h₂ : ∀ q ∈ l₂, q.score < p.score) :
    maxByScore (l₁ ++ p :: l₂) = some p := by
  cases l₁ with
  | nil =>
    simp only [List.nil_append, maxByScore]
    rw [foldl_selectStep_keep l₂ p h₂]
  | cons a rest =>
    simp only [List.cons_append, maxByScore, List.foldl_append, List.foldl_cons]
    have hM : (rest.foldl selectStep a).score ≤ p.score :=
      foldl_selectStep_le rest a p (h₁ a (List.mem_cons_self _ _))
        (fun q hq => h₁ q (List.mem_cons_of_mem _ hq))
    rw [selectStep_of_le _ _ hM, foldl_selectStep_keep l₂ p h₂]

/-- C1 (witness): the amended theorem applied to the tied pair, returning
the second post. -/
theorem selection_tie_last_witness :
    maxByScore [⟨"a", "ta", "sa", 5⟩, ⟨"b", "tb", "sb", 5⟩] = some ⟨"b", "tb", "sb", 5⟩ :=
  selection_tie_last [⟨"a", "ta", "sa", 5⟩] [] ⟨"b", "tb", "sb", 5⟩ (by decide) (by decide)

/-- C2: on a non-empty candidate list with pairwise distinct scores, the
selection step returns the (unique) post whose score is the maximum: the
result is a member, its score dominates every candidate, and any candidate
whose score also dominates every candidate is the result itself. -/
theorem selection_distinct_max (l : List RedditPost) (hne : l ≠ [])
    (hd : l.Pairwise (fun a b => a.score ≠ b.score)) :
    ∃ p, maxByScore l = some p ∧ p ∈ l ∧ (∀ q ∈ l, q.score ≤ p.score) ∧
      (∀ q ∈ l, (∀ r ∈ l, r.score ≤ q.score) → q = p) := by
  cases l with
  | nil => exact absurd rfl hne
  | cons a ps =>
    refine ⟨ps.foldl selectStep a, rfl, foldl_selectStep_mem ps a,
      fun q hq => foldl_selectStep_ge ps a q hq, ?_⟩
    intro q hq hqmax
    have hpm : ps.foldl selectStep a ∈ a :: ps := foldl_selectStep_mem ps a
    have hle : q.score ≤ (ps.foldl selectStep a).score := foldl_selectStep_ge ps a q hq
    have hge : (ps.foldl selectStep a).score ≤ q.score := hqmax _ hpm
    by_contra hne'
    exact (List.Pairwise.forall (fun _ _ h => h.symm) hd hq hpm hne')
      (le_antisymm hle hge)

/-- C2 (witness): two posts with distinct scores 5 and 9; the one with
score 9 is returned. -/
theorem selection_distinct_max_witness :
    ∃ p, maxByScore [⟨"a", "ta", "sa", 5⟩, ⟨"b", "tb", "sb", 9⟩] = some p ∧
      p ∈ [⟨"a", "ta", "sa", 5⟩, ⟨"b", "tb", "sb", 9⟩] ∧
      (∀ q ∈ [(⟨"a", "ta", "sa", 5⟩ : RedditPost), ⟨"b", "tb", "sb", 9⟩], q.score ≤ p.score) ∧
      (∀ q ∈ [(⟨"a", "ta", "sa", 5⟩ : RedditPost), ⟨"b", "tb", "sb", 9⟩],
        (∀ r ∈ [(⟨"a", "ta", "sa", 5⟩ : RedditPost), ⟨"b", "tb", "sb", 9⟩], r.score ≤ q.score) → q = p) :=
  selection_distinct_max [⟨"a", "ta", "sa", 5⟩, ⟨"b", "tb", "sb", 9⟩] (by decide) (by decide)

/-- C3 (counterexample): a malformed (non-JSON) body does not yield
`false` — `response.json()?` propagates the error, so `space_is_open`
fails instead. -/
theorem is_open_malformed_cex :
    space_is_open (.error ()) = .error () ∧ space_is_open (.error ()) ≠ .ok false :=
  ⟨rfl, fun h => Except.noConfusion h⟩

/-- C3 (amended): on every successfully parsed body, `space_is_open`
returns `Ok true` iff the value is a JSON object whose field `state` is
exactly the string `"open"`; every other parsed body (missing field,
non-string, other string, non-object) yields `Ok false`.  A transport
failure or malformed body propagates as an error instead. -/
theorem is_open_spec (v : JValue) :
    (space_is_open (.ok v) = .ok true ↔ v.get "state" = some (.str "open")) ∧
    (space_is_open (.ok v) = .ok true ∨ space_is_open (.ok v) = .ok false) ∧
    (∀ e, space_is_open (.error e) = .error e) := by
  refine ⟨?_, ?_, fun e => rfl⟩
  · simp only [space_is_open]
    cases hg : v.get "state" with
    | none => simp
    | some w => cases w <;> simp
  · obtain ⟨b, hb⟩ : ∃ b, space_is_open (.ok v) = .ok b := ⟨_, rfl⟩
    cases b
    · exact Or.inr hb
    · exact Or.inl hb

/-- C3 (witness): the amended theorem applied to the body
`{"state": "open"}`, which is reported as open. -/
theorem is_open_spec_witness : space_is_open (.ok openBody) = .ok true :=
  (is_open_spec openBody).1.mpr rfl

theorem extractPosts_eq (l : List JValue) :
    ∀ acc, extractPosts l acc = acc ++ l.filterMap parseChild := by
  induction l with
  | nil => intro acc; simp [extractPosts]
  | cons c rest ih =>
    intro acc
    cases hc : parseChild c with
    | none => simp [extractPosts, hc, ih, List.filterMap_cons]
    | some p => simp [extractPosts, hc, ih, List.filterMap_cons]

theorem parseChild_isSome_iff (c : JValue) : (parseChild c).isSome ↔ wellFormedChild c := by
  unfold parseChild wellFormedChild
  cases h1 : c.pointer "/data/id" with
  | none => simp
  | some v1 =>
    cases v1 with
    | null => simp
    | bool b => simp
    | num n => simp
    | arr a => simp
    | obj o => simp
    | str s1 =>
      cases h2 : c.pointer "/data/title" with
      | none => simp
      | some v2 =>
        cases v2 with
        | null => simp
        | bool b => simp
        | num n => simp
        | arr a => simp
        | obj o => simp
        | str s2 =>
          cases h3 : c.pointer "/data/selftext" with
          | none => simp
          | some v3 =>
            cases v3 with
            | null => simp
            | bool b => simp
            | num n => simp
            | arr a => simp
            | obj o => simp
            | str s3 =>
              cases h4 : c.pointer "/data/score" with
              | none => simp
              | some v4 =>
                cases v4 with
                | null => simp
                | bool b => simp
                | str s => simp
                | arr a => simp
                | obj o => simp
                | num n => simp

/-- C5: for every listing body whose `/data/children` is an array, the
fetch step returns exactly the children that parse, in input order
(`filterMap`), and a child parses iff all four fields `id`, `title`,
`selftext`, `score` are present with the correct JSON types. -/
theorem fetch_candidates_filter :
    (∀ (body : JValue) (a : List JValue),
      body.pointer "/data/children" = some (.arr a) →
      load_newest_reddit_posts (.ok body) = .ok (a.filterMap parseChild)) ∧
    (∀ c : JValue, (parseChild c).isSome ↔ wellFormedChild c) := by
  constructor
  · intro body a h
    simp only [load_newest_reddit_posts, h]
    rw [extractPosts_eq a []]
    rfl
  · exact parseChild_isSome_iff

/-- C5 (witness): on the listing with one well-formed child and one child
missing `score`, the fetch step returns only the well-formed post. -/
theorem fetch_candidates_filter_witness :
    load_newest_reddit_posts (.ok listingMissingScore) =
      .ok ([childJson "a" "ta" "sa" (some (.num (some 5))),
            childJson "b" "tb" "sb" none].filterMap parseChild) ∧
    [childJson "a" "ta" "sa" (some (.num (some 5))),
     childJson "b" "tb" "sb" none].filterMap parseChild = [⟨"a", "ta", "sa", 5⟩] :=
  ⟨fetch_candidates_filter.1 listingMissingScore _ rfl, rfl⟩

/-- C9: a child whose `score` field is a JSON number not representable as
a 64-bit signed integer is not skipped: `as_i64().unwrap_or_default()`
coerces the score to 0 and the candidate is kept. -/
theorem score_not_i64_kept (c : JValue) (id title selftext : String)
    (h1 : c.pointer "/data/id" = some (.str id))
    (h2 : c.pointer "/data/title" = some (.str title))
    (h3 : c.pointer "/data/selftext" = some (.str selftext))
    (h4 : c.pointer "/data/score" = some (.num none)) :
    parseChild c = some ⟨id, title, selftext, 0⟩ := by
  unfold parseChild
  rw [h1, h2, h3, h4]
  rfl

/-- C9 (witness): a concrete child with a non-integral score is kept with
score 0. -/
theorem score_not_i64_kept_witness :
    parseChild (childJson "c" "tc" "sc" (some (.num none))) = some ⟨"c", "tc", "sc", 0⟩ :=
  score_not_i64_kept _ "c" "tc" "sc" rfl rfl rfl rfl

theorem splitChar_newline_append : ∀ (id : List Char), '\n' ∉ id →
    ∀ rest, splitChar '\n' (id ++ '\n' :: rest) = id :: splitChar '\n' rest := by
  intro id
  induction id with
  | nil =>
    intro _ rest
    simp [splitChar]
  | cons c cs ih =>
    intro h rest
    have hc : c ≠ '\n' := fun hh => h (hh ▸ List.mem_cons_self _ _)
    simp only [List.cons_append, splitChar, List.append_eq]
    rw [if_neg hc, ih (fun hm => h (List.mem_cons_of_mem _ hm)) rest]

theorem dropLastEmpty_cons_of_ne (x : List Char) (xs : List (List Char)) (h : xs ≠ []) :
    dropLastEmpty (x :: xs) = x :: dropLastEmpty xs := by
  cases xs with
  | nil => exact absurd rfl h
  | cons y ys => rfl

theorem dropLastEmpty_append_empty : ∀ xs : List (List Char),
    dropLastEmpty (xs ++ [[]]) = xs := by
  intro xs
  induction xs with
  | nil => rfl
  | cons x xs ih =>
    rw [List.cons_append, dropLastEmpty_cons_of_ne x (xs ++ [[]]) (by simp), ih]

theorem stripCR_of_no_cr (l : List Char) (h : l.getLast? ≠ some '\r') : stripCR l = l := by
  unfold stripCR
  rw [if_neg h]

theorem splitChar_writeAll : ∀ ids : List String, (∀ id ∈ ids, '\n' ∉ id.data) →
    splitChar '\n' (writeAll ids) = ids.map String.data ++ [[]] := by
  intro ids
  induction ids with
  | nil =>
    intro _
    simp [writeAll, splitChar]
  | cons id rest ih =>
    intro h
    simp only [writeAll, List.map_cons]
    rw [splitChar_newline_append id.data (h id (List.mem_cons_self _ _)) (writeAll rest),
        ih (fun q hq => h q (List.mem_cons_of_mem _ hq))]
    rfl

theorem fileLines_writeAll (ids : List String)
    (hn : ∀ id ∈ ids, '\n' ∉ id.data) (hr : ∀ id ∈ ids, id.data.getLast? ≠ some '\r') :
    fileLines (writeAll ids) = ids := by
  unfold fileLines
  rw [splitChar_writeAll ids hn, dropLastEmpty_append_empty, List.map_map]
  have hpt : ∀ id ∈ ids, ((fun l => String.mk (stripCR l)) ∘ String.data) id = id := by
    intro id hid
    simp only [Function.comp]
    rw [stripCR_of_no_cr id.data (hr id hid)]
  rw [List.map_congr_left hpt]
  exact List.map_id' ids

theorem foldl_store : ∀ (ids : List String) (u : List String),
    ids.foldl append_and_persist ⟨u, writeAll u⟩ = ⟨u ++ ids, writeAll (u ++ ids)⟩ := by
  intro ids
  induction ids with
  | nil =>
    intro u
    simp
  | cons id rest ih =>
    intro u
    rw [List.foldl_cons]
    show rest.foldl append_and_persist ⟨u ++ [id], writeAll (u ++ [id])⟩ = _
    rw [ih (u ++ [id])]
    simp [List.append_assoc]

theorem load_used_ids_writeAll (ids : List String)
    (h : ∀ id ∈ ids, id.data ≠ [] ∧ '\n' ∉ id.data ∧ id.data.getLast? ≠ some '\r') :
    load_used_ids (.ok (writeAll ids)) = .ok ids := by
  show Except.ok ((fileLines (writeAll ids)).filter (fun l => !l.isEmpty)) = .ok ids
  rw [fileLines_writeAll ids (fun i hi => (h i hi).2.1) (fun i hi => (h i hi).2.2)]
  have hf : ids.filter (fun l => !l.isEmpty) = ids := by
    apply List.filter_eq_self.mpr
    intro a ha
    have hd : a.data ≠ [] := (h a ha).1
    have hne : a ≠ "" := fun hh => hd (by rw [hh])
    have hni : ¬ a.isEmpty := fun hemp => hne ((String.isEmpty_iff a).mp hemp)
    simp [hni]
  rw [hf]

/-- C4 (counterexample): persisting the single identifier `""` and loading
back yields the empty sequence, not `[""]` — the empty line is skipped by
`load`, so the round trip does not hold for arbitrary identifier
strings. -/
theorem round_trip_cex :
    load_used_ids (.ok (([""] : List String).foldl append_and_persist ⟨[], []⟩).file) =
      .ok ([] : List String) ∧
    ([] : List String) ≠ [""] := by
  exact ⟨rfl, by decide⟩

/-- C4 (amended): for identifiers that are non-empty, contain no newline
and do not end in a carriage return (which is what the program ever
writes: reddit post ids), persisting N identifiers one at a time via
`append_and_persist` and then loading yields exactly those N identifiers
in append order, no duplicates, no omissions. -/
theorem round_trip (ids : List String)
    (h : ∀ id ∈ ids, id.data ≠ [] ∧ '\n' ∉ id.data ∧ id.data.getLast? ≠ some '\r') :
    (ids.foldl append_and_persist ⟨[], []⟩).used = ids ∧
    load_used_ids (.ok (ids.foldl append_and_persist ⟨[], []⟩).file) = .ok ids := by
  have h0 : (⟨[], []⟩ : IdStore) = ⟨[], writeAll []⟩ := rfl
  rw [h0, foldl_store ids []]
  exact ⟨rfl, load_used_ids_writeAll ids h⟩

/-- C4 (witness): the round trip applied to the two identifiers `"x"`,
`"y"`. -/
theorem round_trip_witness :
    ((["x", "y"] : List String).foldl append_and_persist ⟨[], []⟩).used = ["x", "y"] ∧
    load_used_ids (.ok ((["x", "y"] : List String).foldl append_and_persist ⟨[], []⟩).file) =
      .ok ["x", "y"] :=
  round_trip ["x", "y"] (by decide)

/-- C6 (counterexample): when the backing file does not exist,
`load_used_ids` does not return the empty sequence — `File::open`'s
NotFound error propagates via `?` and the function fails. -/
theorem load_missing_cex :
    load_used_ids (.error .notFound) = .error .notFound ∧
    load_used_ids (.error .notFound) ≠ .ok ([] : List String) :=
  ⟨rfl, fun h => Except.noConfusion h⟩

/-- C6 (amended): `load_used_ids` propagates every failed open as an
IOError, including the absent-file case; the empty-sequence fallback lives
at the call site in `main`, whose `unwrap_or_default` substitutes the
empty list for every load error, and on success the non-empty persisted
lines are returned. -/
theorem load_missing_spec :
    (∀ e : IOErr, load_used_ids (.error e) = .error e ∧ startup_used_ids (.error e) = []) ∧
    (∀ contents, startup_used_ids (.ok contents) =
      (fileLines contents).filter (fun l => !l.isEmpty)) :=
  ⟨fun _ => ⟨rfl, rfl⟩, fun _ => rfl⟩

/-- C6 (witness): the amended theorem applied to the NotFound outcome. -/
theorem load_missing_spec_witness :
    load_used_ids (.error .notFound) = .error IOErr.notFound ∧
    startup_used_ids (.error .notFound) = [] :=
  load_missing_spec.1 .notFound

theorem run_skips_used (used : List String) (env : IterEnv)
    (posts : List RedditPost) (p : RedditPost)
    (hs : space_is_open env.spaceResp = .ok true)
    (hl : load_newest_reddit_posts env.redditResp = .ok posts)
    (hm : maxByScore posts = some p)
    (hmem : p.id ∈ used) :
    run used env = ⟨.ok, used, .untouched, false, false, false⟩ := by
  simp [run, hs, hl, hm, hmem]

/-- C7: when the space is open and the selected highest-scored post's id
is already in the identifier store, the iteration returns without error,
attempts no synthesis, playback or presentation, and leaves the in-memory
list and the persisted file untouched. -/
theorem run_already_used (used : List String) (env : IterEnv)
    (posts : List RedditPost) (p : RedditPost)
    (hs : space_is_open env.spaceResp = .ok true)
    (hl : load_newest_reddit_posts env.redditResp = .ok posts)
    (hm : maxByScore posts = some p)
    (hmem : p.id ∈ used) :
    run used env = ⟨.ok, used, .untouched, false, false, false⟩ :=
  run_skips_used used env posts p hs hl hm hmem

/-- C7 (witness): the spec's scenario — space open, posts `"a"` (score 5)
and `"b"` (score 9), store already containing `"b"` — runs to `Ok` with no
effect. -/
theorem run_already_used_witness :
    run ["b"] envOpen = ⟨.ok, ["b"], .untouched, false, false, false⟩ :=
  run_already_used ["b"] envOpen [⟨"a", "ta", "sa", 5⟩, ⟨"b", "tb", "sb", 9⟩]
    ⟨"b", "tb", "sb", 9⟩ rfl rfl (by decide) (by decide)

/-- C8: when a new (unseen) post is selected, its id is pushed onto the
in-memory list no matter what happens later; the file is rewritten before
synthesis is ever attempted (synthesis attempted implies the file already
holds the new list, and it is rewritten as soon as create and write
succeed, even if synthesis then fails); when synthesis fails the iteration
errors without playback or presentation; and every later iteration that
selects a post with the same id takes the already-used branch: no
synthesis, no presentation, no state change. -/
theorem run_marks_before_synthesis (used : List String) (env : IterEnv)
    (posts : List RedditPost) (p : RedditPost)
    (hs : space_is_open env.spaceResp = .ok true)
    (hl : load_newest_reddit_posts env.redditResp = .ok posts)
    (hm : maxByScore posts = some p)
    (hnew : p.id ∉ used) :
    (run used env).used = used ++ [p.id] ∧
    ((run used env).synthAttempted = true →
      (run used env).file = .rewritten (writeAll (used ++ [p.id]))) ∧
    (env.createOk = true → env.writeOk = true →
      (run used env).file = .rewritten (writeAll (used ++ [p.id]))) ∧
    (env.createOk = true → env.writeOk = true → env.synthOk = false →
      (run used env).result = .errored .synth ∧ (run used env).synthAttempted = true ∧
      (run used env).playStarted = false ∧ (run used env).presentAttempted = false) ∧
    (∀ (env₂ : IterEnv) (posts₂ : List RedditPost) (q : RedditPost),
      space_is_open env₂.spaceResp = .ok true →
      load_newest_reddit_posts env₂.redditResp = .ok posts₂ →
      maxByScore posts₂ = some q → q.id = p.id →
      run (used ++ [p.id]) env₂ =
        ⟨.ok, used ++ [p.id], .untouched, false, false, false⟩) := by
  refine ⟨?_, ?_, ?_, ?_, ?_⟩
  · cases hcr : env.createOk <;> cases hw : env.writeOk <;>
      cases hsy : env.synthOk <;> cases hdk : env.decodeOk <;>
      simp [run, hs, hl, hm, hnew, hcr, hw, hsy, hdk]
  · cases hcr : env.createOk <;> cases hw : env.writeOk <;>
      cases hsy : env.synthOk <;> cases hdk : env.decodeOk <;>
      simp [run, hs, hl, hm, hnew, hcr, hw, hsy, hdk]
  · intro hcr hw
    cases hsy : env.synthOk <;> cases hdk : env.decodeOk <;>
      simp [run, hs, hl, hm, hnew, hcr, hw, hsy, hdk]
  · intro hcr hw hsy
    cases hdk : env.decodeOk <;>
      simp [run, hs, hl, hm, hnew, hcr, hw, hsy, hdk]
  · intro env₂ posts₂ q hs₂ hl₂ hm₂ hq
    exact run_skips_used (used ++ [p.id]) env₂ posts₂ q hs₂ hl₂ hm₂
      (by rw [hq]; exact List.mem_append_right used (List.mem_singleton.mpr rfl))

/-- C8 (witness): with an empty store and failing synthesis, the selected
post `"b"` is recorded and the iteration fails with the synthesis error
without playback or presentation. -/
theorem run_marks_before_synthesis_witness :
    (run [] envSynthFail).used = [] ++ ["b"] ∧
    ((run [] envSynthFail).result = .errored .synth ∧
     (run [] envSynthFail).synthAttempted = true ∧
     (run [] envSynthFail).playStarted = false ∧
     (run [] envSynthFail).presentAttempted = false) :=
  ⟨(run_marks_before_synthesis [] envSynthFail
      [⟨"a", "ta", "sa", 5⟩, ⟨"b", "tb", "sb", 9⟩] ⟨"b", "tb", "sb", 9⟩
      rfl rfl (by decide) (by decide)).1,
   (run_marks_before_synthesis [] envSynthFail
      [⟨"a", "ta", "sa", 5⟩, ⟨"b", "tb", "sb", 9⟩] ⟨"b", "tb", "sb", 9⟩
      rfl rfl (by decide) (by decide)).2.2.2.1 rfl rfl rfl⟩

theorem byteLen_replicate (n : Nat) (c : Char) :
    byteLen (String.mk (List.replicate n c)) = n * c.utf8Size := by
  unfold byteLen
  rw [List.map_replicate, List.sum_replicate, smul_eq_mul]

/-- C10 (counterexample): a title of 65616 bytes on an 80-column terminal
does not underflow the centering subtraction, because `.len() as u16`
truncates 65616 to 80; the computation yields column 0 instead of
panicking, refuting the claim for every line wider than the terminal. -/
theorem centering_cex :
    80 < byteLen bigTitle ∧ centerX 80 (byteLen bigTitle) = some 0 := by
  have hb : byteLen bigTitle = 65616 := by
    unfold bigTitle
    rw [byteLen_replicate]
    rfl
  rw [hb]
  exact ⟨by norm_num, by decide⟩

/-- C10 (amended): the centering position is `(width - len as u16) / 2`
with no guard, where `len` is the UTF-8 byte length (bytes, not
characters or display columns — a two-byte character counts as 2); the
unsigned 16-bit subtraction underflows (panics) exactly when the byte
length truncated to 16 bits by the cast exceeds the terminal width. -/
theorem centering_underflow :
    (∀ (w : Nat) (s : String), w < u16cast (byteLen s) → centerX w (byteLen s) = none) ∧
    byteLen (String.mk ['é']) = 2 ∧ (String.mk ['é']).length = 1 := by
  refine ⟨fun w s h => ?_, by decide, by decide⟩
  unfold centerX
  rw [if_pos h]

/-- C10 (witness): a 15-byte line on a 10-column terminal underflows the
centering subtraction. -/
theorem centering_underflow_witness :
    10 < u16cast (byteLen "hello world war") ∧
    centerX 10 (byteLen "hello world war") = none :=
  ⟨by decide, centering_underflow.1 10 "hello world war" (by decide)⟩
